import Mathlib

/-!
Verification of the darkhorse signal-generation and rebalancing engine.

The Python modules `darkhorse/indicators.py`, `darkhorse/recommender.py` and
`darkhorse/trader.py` are shallowly embedded below.  Python `float` values are
modelled as exact rationals (`ℚ`); binary floating-point rounding is not
modelled.  Python's `None` sentinel for unavailable indicators becomes
`Option.none`, and a raised `AttributeError` during attribute lookup becomes
`Except.error`.
-/

namespace Darkhorse

/-- Python sequence index normalisation and clamping for slices: a negative
index counts from the end, and the result is clamped into `[0, len]`. -/
def pyClamp (len : ℕ) (i : ℤ) : ℕ :=
  (max 0 (min (if i < 0 then i + len else i) len)).toNat

/-- Python slice `l[a:b]`. -/
def pySlice (l : List ℚ) (a b : ℤ) : List ℚ :=
  (l.take (pyClamp l.length b)).drop (pyClamp l.length a)

/-- Python slice `l[a:]`. -/
def pySliceFrom (l : List ℚ) (a : ℤ) : List ℚ :=
  l.drop (pyClamp l.length a)

/-- Python element access `l[i]` with negative-index support; an out-of-range
index (which would raise `IndexError`) yields `none`. -/
def pyGet? (l : List ℚ) (i : ℤ) : Option ℚ :=
  let j := if i < 0 then i + l.length else i
  if 0 ≤ j then l[j.toNat]? else none

/-! ## indicators.py -/

/-- `simple_moving_average(values, window)` from indicators.py: mean of
`values[-window:]`, or `None` if `len(values) < window or window <= 0`. -/
def simple_moving_average (values : List ℚ) (window : ℤ) : Option ℚ :=
  if (values.length : ℤ) < window ∨ window ≤ 0 then none
  else some ((pySliceFrom values (-window)).sum / (window : ℚ))

/-- `exponential_moving_average(values, window)` from indicators.py: seeded
with `values[0]`, recurrence over the whole tail.  The `[]` branch of the
match is unreachable because the guard forces a non-empty list. -/
def exponential_moving_average (values : List ℚ) (window : ℤ) : Option ℚ :=
  if (values.length : ℤ) < window ∨ window ≤ 0 then none
  else
    match values with
    | [] => none
    | v :: rest =>
      let k : ℚ := 2 / ((window : ℚ) + 1)
      some (rest.foldl (fun ema price => price * k + ema * (1 - k)) v)

/-- The reference value `values[-window - 1]` used by `rate_of_change`.  Under
the availability guard the index is always in range, so the fallback `0` of
`Option.getD` is never the value actually read. -/
def rocReference (values : List ℚ) (window : ℤ) : ℚ :=
  (pyGet? values (-window - 1)).getD 0

/-- `rate_of_change(values, window)` from indicators.py. -/
def rate_of_change (values : List ℚ) (window : ℤ) : Option ℚ :=
  if (values.length : ℤ) ≤ window ∨ window ≤ 0 then none
  else
    let past := rocReference values window
    if past = 0 then none
    else some (((pyGet? values (-1)).getD 0 - past) / past)

/-- The `(prev, current)` pairs `zip(values[-period - 1:-1], values[-period:])`
iterated by `relative_strength_index`. -/
def rsiPairs (values : List ℚ) (period : ℤ) : List (ℚ × ℚ) :=
  (pySlice values (-period - 1) (-1)).zip (pySliceFrom values (-period))

/-- One step of the gains/losses accumulation loop of
`relative_strength_index`: `change > 0` adds to gains, otherwise subtracts
from losses. -/
def glStep (acc : ℚ × ℚ) (pc : ℚ × ℚ) : ℚ × ℚ :=
  let change := pc.2 - pc.1
  if 0 < change then (acc.1 + change, acc.2) else (acc.1, acc.2 - change)

/-- The gains/losses accumulation loop of `relative_strength_index`. -/
def gainsLosses (pairs : List (ℚ × ℚ)) : ℚ × ℚ :=
  pairs.foldl glStep (0, 0)

/-- `relative_strength_index(values, period=14)` from indicators.py. -/
def relative_strength_index (values : List ℚ) (period : ℤ) : Option ℚ :=
  if (values.length : ℤ) ≤ period then none
  else
    let gl := gainsLosses (rsiPairs values period)
    if gl.2 = 0 then some 100
    else some (100 - 100 / (1 + gl.1 / gl.2))

/-! ## data.py -/

/-- `PriceBar` from data.py.  The trading date is modelled as an integer time
ordinal; none of the verified components inspects it beyond logging. -/
structure PriceBar where
  date : ℤ
  op : ℚ
  high : ℚ
  low : ℚ
  close : ℚ
  volume : Option ℚ
deriving DecidableEq

/-- `closing_prices(bars)` from data.py. -/
def closing_prices (bars : List PriceBar) : List ℚ :=
  bars.map (fun bar => bar.close)

/-! ## recommender.py -/

/-- `Recommendation` from recommender.py.  The frozen dataclass declares
exactly these four fields; in particular it has no `buy_pressure` or
`sell_pressure` field. -/
structure Recommendation where
  asset : String
  action : String
  confidence : ℚ
  reasons : List String
deriving DecidableEq

/-- A Python attribute value of a `Recommendation` field. -/
inductive PyAttr where
  | str : String → PyAttr
  | num : ℚ → PyAttr
  | strs : List String → PyAttr
deriving DecidableEq

/-- Python attribute access on a `Recommendation` instance: exactly the four
declared dataclass fields resolve; any other attribute name raises
`AttributeError`, modelled as `none`. -/
def Recommendation.attr (r : Recommendation) (name : String) : Option PyAttr :=
  if name = "asset" then some (.str r.asset)
  else if name = "action" then some (.str r.action)
  else if name = "confidence" then some (.num r.confidence)
  else if name = "reasons" then some (.strs r.reasons)
  else none

/-- `_format_percentage(value)` from recommender.py, i.e. `f"{value*100:.1f}%"`
up to the rounding of the underlying binary double, which is modelled as exact
rational rounding to one decimal (ties upward). -/
def _format_percentage (value : ℚ) : String :=
  let r : ℤ := ⌊value * 100 * 10 + 1 / 2⌋
  (if r < 0 then "-" else "") ++ toString (r.natAbs / 10) ++ "."
    ++ toString (r.natAbs % 10) ++ "%"

def smaBuyReason : String :=
  "Der kurzfristige gleitende Durchschnitt liegt über dem langfristigen, "
    ++ "was auf einen Aufwärtstrend hindeutet."

def smaSellReason : String :=
  "Der kurzfristige gleitende Durchschnitt liegt unter dem langfristigen, "
    ++ "was auf nachlassende Dynamik deutet."

def rocBuyReason (roc : ℚ) : String :=
  "Die letzten Schlusskurse steigen, die Dynamik ist positiv ("
    ++ _format_percentage roc ++ " in den letzten Tagen)."

def rocSellReason (roc : ℚ) : String :=
  "Die letzten Schlusskurse fallen, die Dynamik ist negativ ("
    ++ _format_percentage roc ++ " in den letzten Tagen)."

def rsiOverboughtReason : String :=
  "Der RSI liegt über 70 und deutet auf eine überkaufte Situation hin."

def rsiOversoldReason : String :=
  "Der RSI liegt unter 30 und weist auf eine überverkaufte Situation hin."

def rsiNeutralReason : String := "Der RSI bewegt sich in einer neutralen Zone."

def fallbackReason : String :=
  "Nicht genügend Daten für eine klare Aussage – daher neutrale Empfehlung."

/-- The SMA-crossover block of `analyse_asset` (recommender.py lines 42–56):
`(buy contribution, sell contribution, appended reasons)`. -/
def smaSignal (prices : List ℚ) : ℚ × ℚ × List String :=
  match simple_moving_average prices 20, simple_moving_average prices 50 with
  | some short_sma, some long_sma =>
    let delta := (short_sma - long_sma) / long_sma
    let magnitude := min |delta| 0.4
    if 0 < delta then (magnitude, 0, [smaBuyReason])
    else if delta < 0 then (0, magnitude, [smaSellReason])
    else (0, 0, [])
  | _, _ => (0, 0, [])

/-- The momentum (ROC) block of `analyse_asset` (recommender.py lines 58–73). -/
def rocSignal (prices : List ℚ) : ℚ × ℚ × List String :=
  match rate_of_change prices 5 with
  | some roc =>
    let magnitude := min |roc| 0.2
    if 0 < roc then (magnitude, 0, [rocBuyReason roc])
    else if roc < 0 then (0, magnitude, [rocSellReason roc])
    else (0, 0, [])
  | none => (0, 0, [])

/-- The RSI block of `analyse_asset` (recommender.py lines 75–89). -/
def rsiSignal (prices : List ℚ) : ℚ × ℚ × List String :=
  match relative_strength_index prices 14 with
  | some rsi =>
    if 70 < rsi then (0, min ((rsi - 70) / 30) 0.3, [rsiOverboughtReason])
    else if rsi < 30 then (min ((30 - rsi) / 30) 0.3, 0, [rsiOversoldReason])
    else (0, 0, [rsiNeutralReason])
  | none => (0, 0, [])

/-- The accumulated `buy_pressure` of `analyse_asset`. -/
def buyPressure (prices : List ℚ) : ℚ :=
  (smaSignal prices).1 + (rocSignal prices).1 + (rsiSignal prices).1

/-- The accumulated `sell_pressure` of `analyse_asset`. -/
def sellPressure (prices : List ℚ) : ℚ :=
  (smaSignal prices).2.1 + (rocSignal prices).2.1 + (rsiSignal prices).2.1

/-- The `reasons` list accumulated by `analyse_asset` before the
insufficient-data fallback. -/
def collectedReasons (prices : List ℚ) : List String :=
  (smaSignal prices).2.2 ++ (rocSignal prices).2.2 ++ (rsiSignal prices).2.2

/-- The resolution block of `analyse_asset` (recommender.py lines 91–100):
from the two accumulated pressures, the chosen `(action, confidence)`. -/
def decideAction (buy_pressure sell_pressure : ℚ) : String × ℚ :=
  let base_confidence : ℚ := 0.2
  let threshold : ℚ := 0.05
  if sell_pressure + threshold < buy_pressure then
    ("Buy", min (base_confidence + buy_pressure) 0.95)
  else if buy_pressure + threshold < sell_pressure then
    ("Sell", min (base_confidence + sell_pressure) 0.95)
  else
    ("Hold", min (base_confidence + max buy_pressure sell_pressure / 2) 0.6)

/-- The final `reasons` list of `analyse_asset` (recommender.py
lines 102–105): the collected reasons, or the insufficient-data fallback if
none were collected. -/
def finalReasons (prices : List ℚ) : List String :=
  if collectedReasons prices = [] then [fallbackReason] else collectedReasons prices

/-- `analyse_asset(asset, history)` from recommender.py (lines 24–109). -/
def analyse_asset (asset : String) (history : List PriceBar) : Recommendation :=
  let prices := closing_prices history
  ⟨asset,
    (decideAction (buyPressure prices) (sellPressure prices)).1,
    (decideAction (buyPressure prices) (sellPressure prices)).2,
    finalReasons prices⟩

/-! ## trader.py -/

/-- `MIN_ABSOLUTE_TRADE_VALUE_USD` from trader.py. -/
def MIN_ABSOLUTE_TRADE_VALUE_USD : ℚ := 10.0

/-- `MIN_RELATIVE_TRADE_SHARE` from trader.py. -/
def MIN_RELATIVE_TRADE_SHARE : ℚ := 0.10

/-- `_relative_outperformance(total_value, price, baseline_total,
baseline_price)` from trader.py (lines 125–141). -/
def _relative_outperformance (total_value price : ℚ)
    (baseline_total baseline_price : Option ℚ) : Option ℚ :=
  match baseline_total, baseline_price with
  | some bt, some bp =>
    if bt ≤ 0 ∨ bp ≤ 0 then none
    else some ((total_value / bt - 1) - (price / bp - 1))
  | _, _ => none

/-- `_target_xmr_share(recommendation)` from trader.py (lines 144–176; the
file contains two textually identical definitions, the second shadowing the
first).  The body reads `recommendation.buy_pressure` and
`recommendation.sell_pressure`; attribute lookup is `Recommendation.attr`,
and a lookup of an undeclared field raises `AttributeError`, modelled as
`Except.error`.  The branch for attributes of non-float type is dead code. -/
def _target_xmr_share (r : Recommendation) : Except String ℚ :=
  match r.attr "buy_pressure" with
  | some (.num buy_pressure) =>
    match r.attr "sell_pressure" with
    | some (.num sell_pressure) =>
      let total_pressure := buy_pressure + sell_pressure
      if total_pressure ≤ 0 then Except.ok 0.5
      else
        let bias_ratio := (buy_pressure - sell_pressure) / total_pressure
        let dominant_pressure := max buy_pressure sell_pressure
        let dominance_scale := min (max dominant_pressure 0 / 0.9) 1
        let deviation := 0.4 * bias_ratio * dominance_scale
        let target_share := 0.5 + deviation
        Except.ok (min (max target_share 0.1) 0.9)
    | some _ => Except.error "TypeError"
    | none => Except.error "AttributeError: sell_pressure"
  | some _ => Except.error "TypeError"
  | none => Except.error "AttributeError: buy_pressure"

/-- The mutable portfolio state of `main`’s rebalancing loop in trader.py:
the two balances (lines 225–226) and the cumulative trade counters
(lines 243–250). -/
structure TraderState where
  xmr_balance : ℚ
  usd_balance : ℚ
  buy_count : ℕ
  total_xmr_bought : ℚ
  total_usd_spent_with_fees : ℚ
  total_buy_fees : ℚ
  sell_count : ℕ
  total_xmr_sold : ℚ
  total_usd_gained_net : ℚ
  total_sell_fees : ℚ
deriving DecidableEq

/-- `total_value = usd_balance + xmr_balance * price` (trader.py line 295). -/
def totalValue (s : TraderState) (price : ℚ) : ℚ :=
  s.usd_balance + s.xmr_balance * price

/-- `min_trade_value` (trader.py line 296). -/
def minTradeValue (price : ℚ) : ℚ :=
  max (price * MIN_RELATIVE_TRADE_SHARE) MIN_ABSOLUTE_TRADE_VALUE_USD

/-- `current_xmr_share` (trader.py line 311). -/
def currentXmrShare (s : TraderState) (price : ℚ) : ℚ :=
  if totalValue s price ≤ 0 then 0 else s.xmr_balance * price / totalValue s price

/-- `share_change` (trader.py lines 316–320): the share gap clamped to
`±trade_fraction · confidence`. -/
def shareChange (trade_fraction confidence price target_xmr_share : ℚ)
    (s : TraderState) : ℚ :=
  let share_gap := target_xmr_share - currentXmrShare s price
  let max_share_change := trade_fraction * confidence
  max (-max_share_change) (min max_share_change share_gap)

/-- The capped cash spend `usd_to_spend` of the buy branch
(trader.py lines 322–323). -/
def usdToSpend (trade_fraction fee_rate confidence price target_xmr_share : ℚ)
    (s : TraderState) : ℚ :=
  let max_affordable_trade := s.usd_balance / (1 + fee_rate)
  min (shareChange trade_fraction confidence price target_xmr_share s
        * totalValue s price)
    max_affordable_trade

/-- The asset volume `xmr_to_sell` of the sell branch (trader.py line 349). -/
def xmrToSell (trade_fraction confidence price target_xmr_share : ℚ)
    (s : TraderState) : ℚ :=
  min (-shareChange trade_fraction confidence price target_xmr_share s
        * totalValue s price / price)
    s.xmr_balance

/-- One pass of the trade-execution block of `main`’s loop (trader.py
lines 295–296 and 310–373), given the cycle's latest price and the
recommendation-derived `target_xmr_share` and `confidence`.  In the source
these two values come from `_target_xmr_share(recommendation)` and
`recommendation.confidence`; the former in fact raises on every
`Recommendation` (see the C2 theorem), so this models the block as written,
parameterised over the values it would consume.  `trade_fraction` and
`fee_rate` are the values after `main`’s clamping (lines 228–229). -/
def tradeStep (trade_fraction fee_rate : ℚ) (price target_xmr_share confidence : ℚ)
    (s : TraderState) : TraderState :=
  let total_value := totalValue s price
  let min_trade_value := minTradeValue price
  if 0 < total_value then
    let share_gap := target_xmr_share - currentXmrShare s price
    let max_share_change := trade_fraction * confidence
    if 1 / 10000 ≤ |share_gap| ∧ 0 < max_share_change then
      let share_change := shareChange trade_fraction confidence price target_xmr_share s
      if 0 < share_change ∧ 0 < s.usd_balance then
        let usd_to_spend :=
          usdToSpend trade_fraction fee_rate confidence price target_xmr_share s
        if min_trade_value ≤ usd_to_spend then
          let fee_paid := usd_to_spend * fee_rate
          let total_usd_spent := usd_to_spend + fee_paid
          let xmr_purchased := usd_to_spend / price
          { s with
            xmr_balance := s.xmr_balance + xmr_purchased
            usd_balance := s.usd_balance - total_usd_spent
            buy_count := s.buy_count + 1
            total_xmr_bought := s.total_xmr_bought + xmr_purchased
            total_usd_spent_with_fees := s.total_usd_spent_with_fees + total_usd_spent
            total_buy_fees := s.total_buy_fees + fee_paid }
        else s
      else if share_change < 0 ∧ 0 < s.xmr_balance then
        let xmr_to_sell := xmrToSell trade_fraction confidence price target_xmr_share s
        if 0 < xmr_to_sell then
          let usd_before_fee := xmr_to_sell * price
          if usd_before_fee < min_trade_value then s
          else
            let fee_paid := usd_before_fee * fee_rate
            let usd_gained := usd_before_fee - fee_paid
            { s with
              xmr_balance := s.xmr_balance - xmr_to_sell
              usd_balance := s.usd_balance + usd_gained
              sell_count := s.sell_count + 1
              total_xmr_sold := s.total_xmr_sold + xmr_to_sell
              total_usd_gained_net := s.total_usd_gained_net + usd_gained
              total_sell_fees := s.total_sell_fees + fee_paid }
        else s
      else s
    else s
  else s

/-- Iterated rebalancing: fold `tradeStep` over a list of cycles, each cycle
carrying `(price, target_xmr_share, confidence)`. -/
def runCycles (trade_fraction fee_rate : ℚ) (cycles : List (ℚ × ℚ × ℚ))
    (s : TraderState) : TraderState :=
  cycles.foldl (fun st c => tradeStep trade_fraction fee_rate c.1 c.2.1 c.2.2 st) s

/-- The baseline latch of `main`’s loop (trader.py lines 297–299): on each
active cycle, the pair `(baseline_total_value, baseline_price)` is set to the
cycle's `(total_value, price)` if it is still unset, and left alone
otherwise. -/
def latchBaseline (b : Option (ℚ × ℚ)) (cycle : ℚ × ℚ) : Option (ℚ × ℚ) :=
  match b with
  | none => some cycle
  | some x => some x

/-- The baseline after a sequence of active cycles, each carrying
`(total_value, price)`, starting unset (trader.py lines 237–238). -/
def baselineAfter (cycles : List (ℚ × ℚ)) : Option (ℚ × ℚ) :=
  cycles.foldl latchBaseline none

/-! ## Concrete price series used as test inputs -/

/-- A slowly but strictly rising 70-point series: 100, 101, ..., 169. -/
def slowRiseBars : List PriceBar :=
  (List.range 70).map (fun i => ⟨0, 0, 0, 0, 100 + i, none⟩)

/-- A slowly but strictly falling 70-point series: 1000, 999, ..., 931. -/
def slowFallBars : List PriceBar :=
  (List.range 70).map (fun i => ⟨0, 0, 0, 0, 1000 - i, none⟩)

/-- A steeply and strictly rising 70-point series: 100, 120, ..., 1480. -/
def steepRiseBars : List PriceBar :=
  (List.range 70).map (fun i => ⟨0, 0, 0, 0, 100 + 20 * i, none⟩)

/-- A steeply and strictly falling 70-point series: 1500, 1480, ..., 120. -/
def steepFallBars : List PriceBar :=
  (List.range 70).map (fun i => ⟨0, 0, 0, 0, 1500 - 20 * i, none⟩)

end Darkhorse


namespace Darkhorse

/-! ## Supporting lemmas: the pressures are non-negative -/

theorem smaSignal_nonneg (p : List ℚ) :
    0 ≤ (smaSignal p).1 ∧ 0 ≤ (smaSignal p).2.1 := by
  unfold smaSignal
  cases h20 : simple_moving_average p 20 with
  | none => exact ⟨le_refl 0, le_refl 0⟩
  | some s =>
    cases h50 : simple_moving_average p 50 with
    | none => exact ⟨le_refl 0, le_refl 0⟩
    | some l =>
      dsimp only
      split_ifs
      · exact ⟨le_min (abs_nonneg _) (by norm_num), le_refl 0⟩
      · exact ⟨le_refl 0, le_min (abs_nonneg _) (by norm_num)⟩
      · exact ⟨le_refl 0, le_refl 0⟩

theorem rocSignal_nonneg (p : List ℚ) :
    0 ≤ (rocSignal p).1 ∧ 0 ≤ (rocSignal p).2.1 := by
  unfold rocSignal
  cases h : rate_of_change p 5 with
  | none => exact ⟨le_refl 0, le_refl 0⟩
  | some roc =>
    dsimp only
    split_ifs
    · exact ⟨le_min (abs_nonneg _) (by norm_num), le_refl 0⟩
    · exact ⟨le_refl 0, le_min (abs_nonneg _) (by norm_num)⟩
    · exact ⟨le_refl 0, le_refl 0⟩

theorem rsiSignal_nonneg (p : List ℚ) :
    0 ≤ (rsiSignal p).1 ∧ 0 ≤ (rsiSignal p).2.1 := by
  unfold rsiSignal
  cases h : relative_strength_index p 14 with
  | none => exact ⟨le_refl 0, le_refl 0⟩
  | some rsi =>
    dsimp only
    split_ifs with h1 h2
    · refine ⟨le_refl 0, le_min (div_nonneg (by linarith) (by norm_num)) (by norm_num)⟩
    · refine ⟨le_min (div_nonneg (by linarith) (by norm_num)) (by norm_num), le_refl 0⟩
    · exact ⟨le_refl 0, le_refl 0⟩

theorem buyPressure_nonneg (p : List ℚ) : 0 ≤ buyPressure p :=
  add_nonneg (add_nonneg (smaSignal_nonneg p).1 (rocSignal_nonneg p).1)
    (rsiSignal_nonneg p).1

theorem sellPressure_nonneg (p : List ℚ) : 0 ≤ sellPressure p :=
  add_nonneg (add_nonneg (smaSignal_nonneg p).2 (rocSignal_nonneg p).2)
    (rsiSignal_nonneg p).2

theorem decideAction_conf_bounds (bp sp : ℚ) (h1 : 0 ≤ bp) (h2 : 0 ≤ sp) :
    0.2 ≤ (decideAction bp sp).2 ∧ (decideAction bp sp).2 ≤ 0.95 ∧
      ((decideAction bp sp).1 = "Hold" → (decideAction bp sp).2 ≤ 0.6) := by
  unfold decideAction
  dsimp only
  split_ifs with hb hs
  · refine ⟨le_min (by linarith) (by norm_num), min_le_right _ _, fun hc => ?_⟩
    exact absurd hc (by simp)
  · refine ⟨le_min (by linarith) (by norm_num), min_le_right _ _, fun hc => ?_⟩
    exact absurd hc (by simp)
  · have hmax : 0 ≤ max bp sp := le_trans h1 (le_max_left _ _)
    refine ⟨le_min (by linarith) (by norm_num), ?_, fun _ => min_le_right _ _⟩
    exact le_trans (min_le_right _ _) (by norm_num)

/-! ## C5, C10: confidence bounds -/

/-- C5: for every asset name and every bar sequence whatsoever, the confidence
in the `Recommendation` returned by `analyse_asset` lies in the closed
interval [0.1, 0.95]. -/
theorem analyse_confidence_within_bounds (asset : String) (history : List PriceBar) :
    0.1 ≤ (analyse_asset asset history).confidence ∧
      (analyse_asset asset history).confidence ≤ 0.95 := by
  have h := decideAction_conf_bounds (buyPressure (closing_prices history))
    (sellPressure (closing_prices history)) (buyPressure_nonneg _)
    (sellPressure_nonneg _)
  exact ⟨le_trans (by norm_num) h.1, h.2.1⟩

/-- C10: for every asset name and bar sequence, the confidence returned by
`analyse_asset` is at least 0.2 (base confidence plus non-negative pressure
terms), so the spec's stated floor of 0.1 is never attained; and a Hold
recommendation's confidence never exceeds 0.6. -/
theorem analyse_confidence_base_floor (asset : String) (history : List PriceBar) :
    0.2 ≤ (analyse_asset asset history).confidence ∧
      ((analyse_asset asset history).action = "Hold" →
        (analyse_asset asset history).confidence ≤ 0.6) := by
  have h := decideAction_conf_bounds (buyPressure (closing_prices history))
    (sellPressure (closing_prices history)) (buyPressure_nonneg _)
    (sellPressure_nonneg _)
  exact ⟨h.1, h.2.2⟩

/-- Witness for C10 at a concrete input: the empty history yields a Hold
recommendation, whose confidence is at least 0.2 and at most 0.6. -/
theorem analyse_confidence_base_floor_witness :
    0.2 ≤ (analyse_asset "XMR" []).confidence ∧
      (analyse_asset "XMR" []).confidence ≤ 0.6 :=
  ⟨(analyse_confidence_base_floor "XMR" []).1,
   (analyse_confidence_base_floor "XMR" []).2 (by with_unfolding_all decide)⟩

/-! ## C1, C2: the missing pressure fields -/

/-- C1: the `Recommendation` returned by `analyse_asset` does NOT carry
`buy_pressure` and `sell_pressure` attributes — looking either of them up
raises `AttributeError` (modelled as `none`), for every input.  This
contradicts the spec's data model, which includes both fields. -/
theorem recommendation_lacks_pressure_fields (asset : String) (history : List PriceBar) :
    (analyse_asset asset history).attr "buy_pressure" = none ∧
      (analyse_asset asset history).attr "sell_pressure" = none := by
  constructor <;> simp [Recommendation.attr]

/-- C2: `_target_xmr_share` raises `AttributeError` on every `Recommendation`
produced by `analyse_asset` — the derivation never succeeds, because the
dataclass has no `buy_pressure` field.  This contradicts the spec, which says
the target-share derivation succeeds on every recommendation. -/
theorem target_share_raises_attribute_error (asset : String) (history : List PriceBar) :
    _target_xmr_share (analyse_asset asset history)
      = Except.error "AttributeError: buy_pressure" := by
  have h : (analyse_asset asset history).attr "buy_pressure" = none := by
    simp [Recommendation.attr]
  unfold _target_xmr_share
  rw [h]

/-! ## C3: no indicator available -/

/-- C3 (amended): whenever no indicator is available (all four indicator
calls return the unavailable sentinel — e.g. fewer than 6 closing prices),
`analyse_asset` returns Hold with exactly the single insufficient-data
fallback reason and confidence exactly 0.2 — the base confidence, not the
spec's claimed floor of 0.1. -/
theorem analyse_no_indicators (asset : String) (history : List PriceBar)
    (h20 : simple_moving_average (closing_prices history) 20 = none)
    (h50 : simple_moving_average (closing_prices history) 50 = none)
    (hroc : rate_of_change (closing_prices history) 5 = none)
    (hrsi : relative_strength_index (closing_prices history) 14 = none) :
    (analyse_asset asset history).action = "Hold" ∧
      (analyse_asset asset history).reasons = [fallbackReason] ∧
      (analyse_asset asset history).confidence = 0.2 := by
  have hsma : smaSignal (closing_prices history) = (0, 0, []) := by
    unfold smaSignal; rw [h20]
  have hrocS : rocSignal (closing_prices history) = (0, 0, []) := by
    unfold rocSignal; rw [hroc]
  have hrsiS : rsiSignal (closing_prices history) = (0, 0, []) := by
    unfold rsiSignal; rw [hrsi]
  have hbp : buyPressure (closing_prices history) = 0 := by
    unfold buyPressure; rw [hsma, hrocS, hrsiS]; norm_num
  have hsp : sellPressure (closing_prices history) = 0 := by
    unfold sellPressure; rw [hsma, hrocS, hrsiS]; norm_num
  have hcr : collectedReasons (closing_prices history) = [] := by
    unfold collectedReasons; rw [hsma, hrocS, hrsiS]; rfl
  have hfr : finalReasons (closing_prices history) = [fallbackReason] := by
    unfold finalReasons; rw [hcr]; rfl
  have hda : decideAction 0 0 = ("Hold", 0.2) := by
    unfold decideAction; norm_num
  refine ⟨?_, ?_, ?_⟩
  · show (decideAction (buyPressure (closing_prices history))
      (sellPressure (closing_prices history))).1 = "Hold"
    rw [hbp, hsp, hda]
  · show finalReasons (closing_prices history) = [fallbackReason]
    exact hfr
  · show (decideAction (buyPressure (closing_prices history))
      (sellPressure (closing_prices history))).2 = 0.2
    rw [hbp, hsp, hda]

/-- Witness for C3 at a concrete input: the empty bar list has no indicator
available, and `analyse_asset` returns Hold, the single fallback reason, and
confidence 0.2. -/
theorem analyse_no_indicators_witness :
    (analyse_asset "XMR" []).action = "Hold" ∧
      (analyse_asset "XMR" []).reasons = [fallbackReason] ∧
      (analyse_asset "XMR" []).confidence = 0.2 :=
  analyse_no_indicators "XMR" [] (by with_unfolding_all decide)
    (by with_unfolding_all decide) (by with_unfolding_all decide)
    (by with_unfolding_all decide)

/-- Counterexample to C3 as stated: on the empty bar list no indicator is
available, yet the returned confidence is not the claimed floor 0.1 (it is
0.2). -/
theorem analyse_no_indicators_confidence_ne_floor :
    simple_moving_average (closing_prices []) 20 = none ∧
      simple_moving_average (closing_prices []) 50 = none ∧
      rate_of_change (closing_prices []) 5 = none ∧
      relative_strength_index (closing_prices []) 14 = none ∧
      (analyse_asset "XMR" []).confidence ≠ 0.1 := by
  with_unfolding_all decide

/-! ## C8: indicator availability boundaries -/

/-- C8: each indicator returns the unavailable sentinel exactly on its own
boundary and never raises: SMA and EMA are unavailable iff
`len(values) < window` or `window ≤ 0`; ROC is unavailable iff
`len(values) ≤ window`, `window ≤ 0`, or the reference value is exactly 0;
RSI is unavailable iff `len(values) ≤ period`; on all other inputs each
returns a numeric value. -/
theorem indicator_unavailability_boundaries (values : List ℚ) (w p : ℤ) :
    (simple_moving_average values w = none ↔
      (values.length : ℤ) < w ∨ w ≤ 0) ∧
    (exponential_moving_average values w = none ↔
      (values.length : ℤ) < w ∨ w ≤ 0) ∧
    (rate_of_change values w = none ↔
      (values.length : ℤ) ≤ w ∨ w ≤ 0 ∨ rocReference values w = 0) ∧
    (relative_strength_index values p = none ↔ (values.length : ℤ) ≤ p) := by
  refine ⟨?_, ?_, ?_, ?_⟩
  · unfold simple_moving_average
    split_ifs with h <;> simp [h]
  · unfold exponential_moving_average
    split_ifs with h
    · simp [h]
    · cases values with
      | nil =>
        exfalso
        simp at h
        omega
      | cons v rest =>
        simp [h]
        simp at h
        omega
  · unfold rate_of_change
    dsimp only
    split_ifs with h1 h2
    · exact iff_of_true rfl (h1.imp id Or.inl)
    · exact iff_of_true rfl (Or.inr (Or.inr h2))
    · push_neg at h1
      refine iff_of_false (by simp) ?_
      push_neg
      exact ⟨by omega, by omega, h2⟩
  · unfold relative_strength_index
    dsimp only
    split_ifs with h1 h2 <;> simp [h1]

/-! ## C9: baseline latching and outperformance -/

theorem foldl_latch_some (x : ℚ × ℚ) (cs : List (ℚ × ℚ)) :
    cs.foldl latchBaseline (some x) = some x := by
  induction cs with
  | nil => rfl
  | cons d ds ih => simpa [latchBaseline] using ih

/-- C9 (amended): the baseline is set exactly once, on the first active
cycle — after any non-empty cycle sequence it equals the first cycle's
`(total_value, price)`; on the latching cycle, provided that cycle's total
value and price are positive, the reported relative outperformance is exactly
0; and `_relative_outperformance` is a pure function — evaluating it twice on
identical inputs yields identical output. -/
theorem baseline_latched_once_and_outperformance_zero (c : ℚ × ℚ)
    (cs : List (ℚ × ℚ)) (htv : 0 < c.1) (hp : 0 < c.2) :
    baselineAfter (c :: cs) = some c ∧
      _relative_outperformance c.1 c.2 (some c.1) (some c.2) = some 0 ∧
      (∀ tv price bt bp, _relative_outperformance tv price bt bp
        = _relative_outperformance tv price bt bp) := by
  refine ⟨?_, ?_, fun _ _ _ _ => rfl⟩
  · show cs.foldl latchBaseline (latchBaseline none c) = some c
    exact foldl_latch_some c cs
  · unfold _relative_outperformance
    dsimp only
    rw [if_neg (by push_neg; exact ⟨htv, hp⟩)]
    rw [div_self (ne_of_gt htv), div_self (ne_of_gt hp)]
    norm_num

/-- Witness for C9 at a concrete input: latching cycle (100, 50) followed by
another cycle; the baseline stays (100, 50) and the latch-cycle
outperformance is 0. -/
theorem baseline_latched_once_witness :
    baselineAfter [(100, 50), (7, 8)] = some (100, 50) ∧
      _relative_outperformance 100 50 (some 100) (some 50) = some 0 ∧
      (∀ tv price bt bp, _relative_outperformance tv price bt bp
        = _relative_outperformance tv price bt bp) :=
  baseline_latched_once_and_outperformance_zero (100, 50) [(7, 8)]
    (by norm_num) (by norm_num)

/-- Counterexample to C9 as stated: on a latching cycle whose total value is
0 (e.g. both starting balances zero), no outperformance value is reported at
all — `_relative_outperformance` returns `None`, not 0. -/
theorem outperformance_unreported_at_zero_baseline :
    _relative_outperformance 0 100 (some 0) (some 100) = none ∧
      _relative_outperformance 0 100 (some 0) (some 100) ≠ some 0 := by
  with_unfolding_all decide

/-! ## C7: the anti-dust rule -/

/-- C7: on any cycle where the computed trade value is below
`min_trade_value = max(price·0.10, 10.0)` — for a buy, the capped cash spend;
for a sell, volume·price — the trade is skipped and neither the balances nor
any of the cumulative trade counters change (the whole state is returned
unchanged). -/
theorem dust_trade_skipped (tf fee price target conf : ℚ) (s : TraderState) :
    ((0 < shareChange tf conf price target s ∧
        usdToSpend tf fee conf price target s < minTradeValue price) →
      tradeStep tf fee price target conf s = s) ∧
    ((shareChange tf conf price target s < 0 ∧
        xmrToSell tf conf price target s * price < minTradeValue price) →
      tradeStep tf fee price target conf s = s) := by
  constructor
  · rintro ⟨hpos, hdust⟩
    unfold tradeStep
    dsimp only
    split_ifs <;> try rfl
    all_goals exfalso
    all_goals
      first
        | exact (not_le.mpr hdust)
            ‹minTradeValue price ≤ usdToSpend tf fee conf price target s›
        | exact (not_lt.mpr (le_of_lt
            (‹shareChange tf conf price target s < 0 ∧ 0 < s.xmr_balance›.1))) hpos
  · rintro ⟨hneg, hdust⟩
    unfold tradeStep
    dsimp only
    split_ifs <;> try rfl
    all_goals exfalso
    all_goals
      first
        | exact (not_lt.mpr (le_of_lt hneg))
            ‹0 < shareChange tf conf price target s ∧ 0 < s.usd_balance›.1
        | exact ‹¬xmrToSell tf conf price target s * price < minTradeValue price›
            hdust

/-- Witness for C7 at the spec's concrete scenario: price 100 (so
`min_trade_value = 10`), a computed desired spend of 5, and the state is
returned unchanged. -/
theorem dust_trade_skipped_witness :
    usdToSpend (2/5) 0 (1/8) 100 (1/2) ⟨0, 100, 0, 0, 0, 0, 0, 0, 0, 0⟩ = 5 ∧
      tradeStep (2/5) 0 100 (1/2) (1/8) ⟨0, 100, 0, 0, 0, 0, 0, 0, 0, 0⟩
        = ⟨0, 100, 0, 0, 0, 0, 0, 0, 0, 0⟩ :=
  ⟨by with_unfolding_all decide,
   (dust_trade_skipped (2/5) 0 100 (1/2) (1/8) ⟨0, 100, 0, 0, 0, 0, 0, 0, 0, 0⟩).1
     ⟨by with_unfolding_all decide, by with_unfolding_all decide⟩⟩

/-! ## C6: balances stay non-negative -/

theorem usdToSpend_le_affordable (tf fee conf price target : ℚ) (s : TraderState) :
    usdToSpend tf fee conf price target s ≤ s.usd_balance / (1 + fee) :=
  min_le_right _ _

theorem xmrToSell_le_balance (tf conf price target : ℚ) (s : TraderState) :
    xmrToSell tf conf price target s ≤ s.xmr_balance :=
  min_le_right _ _

theorem tradeStep_nonneg (tf fee price target conf : ℚ)
    (hfee0 : 0 ≤ fee) (hfee1 : fee ≤ 1) (hprice : 0 < price)
    (s : TraderState) (hx : 0 ≤ s.xmr_balance) (hu : 0 ≤ s.usd_balance) :
    0 ≤ (tradeStep tf fee price target conf s).xmr_balance ∧
      0 ≤ (tradeStep tf fee price target conf s).usd_balance := by
  unfold tradeStep
  dsimp only
  split_ifs <;> (try dsimp only) <;> try exact ⟨hx, hu⟩
  · -- executed buy
    have h4 := ‹minTradeValue price ≤ usdToSpend tf fee conf price target s›
    have hmint : (10 : ℚ) ≤ minTradeValue price := by
      unfold minTradeValue
      exact le_max_of_le_right (by norm_num [MIN_ABSOLUTE_TRADE_VALUE_USD])
    have hspend : (0 : ℚ) < usdToSpend tf fee conf price target s := by
      have := le_trans hmint h4
      linarith
    have haff := usdToSpend_le_affordable tf fee conf price target s
    have h1f : (0 : ℚ) < 1 + fee := by linarith
    have hcap : usdToSpend tf fee conf price target s * (1 + fee)
        ≤ s.usd_balance := by
      have := (le_div_iff h1f).mp haff
      linarith
    have hexp : usdToSpend tf fee conf price target s * (1 + fee)
        = usdToSpend tf fee conf price target s
          + usdToSpend tf fee conf price target s * fee := by ring
    rw [hexp] at hcap
    constructor
    · have : 0 ≤ usdToSpend tf fee conf price target s / price :=
        le_of_lt (div_pos hspend hprice)
      linarith
    · linarith
  · -- executed sell
    have hsell : (0 : ℚ) < xmrToSell tf conf price target s :=
      ‹0 < xmrToSell tf conf price target s›
    have hle := xmrToSell_le_balance tf conf price target s
    have hgain : 0 ≤ xmrToSell tf conf price target s * price * (1 - fee) :=
      mul_nonneg (mul_nonneg (le_of_lt hsell) (le_of_lt hprice)) (by linarith)
    have hexp : xmrToSell tf conf price target s * price * (1 - fee)
        = xmrToSell tf conf price target s * price
          - xmrToSell tf conf price target s * price * fee := by ring
    rw [hexp] at hgain
    constructor
    · linarith
    · linarith

/-- C6 (amended): starting from non-negative balances, with the fee rate in
[0, 1] and positive cycle prices, after any number of rebalancing cycles both
the base-asset balance and the cash balance remain ≥ 0: a buy's spend is
capped by `cash/(1+fee_rate)` before the fee is added, and a sell's volume is
capped by the current base-asset balance.  (For `fee_rate > 1` or a
non-positive price the code can drive a balance negative; see the
counterexample.) -/
theorem rebalancing_preserves_nonneg_balances (tf fee : ℚ)
    (hfee0 : 0 ≤ fee) (hfee1 : fee ≤ 1) (cycles : List (ℚ × ℚ × ℚ))
    (hpos : ∀ c ∈ cycles, 0 < c.1) (s : TraderState)
    (hx : 0 ≤ s.xmr_balance) (hu : 0 ≤ s.usd_balance) :
    0 ≤ (runCycles tf fee cycles s).xmr_balance ∧
      0 ≤ (runCycles tf fee cycles s).usd_balance := by
  induction cycles generalizing s with
  | nil => exact ⟨hx, hu⟩
  | cons c cs ih =>
    have hc : 0 < c.1 := hpos c (List.mem_cons_self _ _)
    have hstep := tradeStep_nonneg tf fee c.1 c.2.1 c.2.2 hfee0 hfee1 hc s hx hu
    have hrest : ∀ d ∈ cs, 0 < d.1 := fun d hd => hpos d (List.mem_cons_of_mem _ hd)
    simpa only [runCycles, List.foldl_cons] using
      ih hrest (tradeStep tf fee c.1 c.2.1 c.2.2 s) hstep.1 hstep.2

/-- Witness for C6 at a concrete input: the default configuration
(`fee = 0.001`, start 0.8 XMR and 0 USD) over two cycles with positive
prices keeps both balances non-negative. -/
theorem rebalancing_preserves_nonneg_balances_witness :
    0 ≤ (runCycles (2/5) (1/1000) [(100, 1/2, 1/2), (120, 9/10, 3/4)]
        ⟨4/5, 0, 0, 0, 0, 0, 0, 0, 0, 0⟩).xmr_balance ∧
      0 ≤ (runCycles (2/5) (1/1000) [(100, 1/2, 1/2), (120, 9/10, 3/4)]
        ⟨4/5, 0, 0, 0, 0, 0, 0, 0, 0, 0⟩).usd_balance :=
  rebalancing_preserves_nonneg_balances (2/5) (1/1000)
    (by norm_num) (by norm_num) [(100, 1/2, 1/2), (120, 9/10, 3/4)]
    (by with_unfolding_all decide)
    ⟨4/5, 0, 0, 0, 0, 0, 0, 0, 0, 0⟩ (by norm_num) (by norm_num)

/-- Counterexample to C6 as stated: the claim holds for no constraint on the
configured fee rate or the feed's prices, but with `fee_rate = 2` (accepted
by `main`, which only clamps the fee below at 0) a sell drives the cash
balance negative, and with a negative price a buy drives the base-asset
balance negative. -/
theorem trade_can_breach_balance_floor :
    (tradeStep (2/5) 2 100 (1/10) (1/2)
        ⟨1, 0, 0, 0, 0, 0, 0, 0, 0, 0⟩).usd_balance < 0 ∧
      (tradeStep (2/5) 0 (-50) (9/10) 1
        ⟨1/10, 1000, 0, 0, 0, 0, 0, 0, 0, 0⟩).xmr_balance < 0 := by
  with_unfolding_all decide

/-! ## C4: monotone price series.  Supporting slice and sum lemmas. -/

theorem mul_len_lt_sum (B : List ℚ) (a : ℚ) (hne : B ≠ [])
    (h : ∀ b ∈ B, a < b) : a * B.length < B.sum := by
  induction B with
  | nil => exact absurd rfl hne
  | cons b bs ih =>
    have hb : a < b := h b (List.mem_cons_self _ _)
    cases bs with
    | nil => simpa using hb
    | cons c cs =>
      have hih := ih (List.cons_ne_nil _ _)
        (fun x hx => h x (List.mem_cons_of_mem _ hx))
      simp only [List.length_cons, List.sum_cons] at hih ⊢
      push_cast at hih ⊢
      linarith

theorem cross_sum_lt (A B : List ℚ) (hA : A ≠ []) (hB : B ≠ [])
    (h : ∀ x ∈ A, ∀ y ∈ B, x < y) :
    A.sum * B.length < B.sum * A.length := by
  induction A with
  | nil => exact absurd rfl hA
  | cons a as ih =>
    have ha : a * B.length < B.sum := mul_len_lt_sum B a hB (h a (List.mem_cons_self _ _))
    cases as with
    | nil => simpa using ha
    | cons b bs =>
      have hih := ih (List.cons_ne_nil _ _)
        (fun x hx y hy => h x (List.mem_cons_of_mem _ hx) y hy)
      simp only [List.length_cons, List.sum_cons] at hih ⊢
      push_cast at hih ⊢
      nlinarith [ha, hih]

theorem pyClamp_neg (n : ℕ) (w : ℤ) (h0 : 0 < w) (h : w ≤ (n : ℤ)) :
    pyClamp n (-w) = n - w.toNat := by
  unfold pyClamp
  rw [if_pos (by omega)]
  omega

theorem pySliceFrom_neg (l : List ℚ) (w : ℤ) (h0 : 0 < w)
    (h : w ≤ (l.length : ℤ)) :
    pySliceFrom l (-w) = l.drop (l.length - w.toNat) := by
  unfold pySliceFrom
  rw [pyClamp_neg l.length w h0 h]

theorem sma_some (values : List ℚ) (w : ℤ) (h0 : 0 < w)
    (h : w ≤ (values.length : ℤ)) :
    simple_moving_average values w
      = some ((values.drop (values.length - w.toNat)).sum / (w : ℚ)) := by
  unfold simple_moving_average
  rw [if_neg (by omega), pySliceFrom_neg values w h0 h]

theorem pyGet?_neg (l : List ℚ) (w : ℤ) (h0 : 0 < w) (h : w ≤ (l.length : ℤ)) :
    pyGet? l (-w) = l[(l.length - w.toNat)]? := by
  unfold pyGet?
  dsimp only
  rw [if_pos (by omega)]
  congr 1
  omega

theorem sma_windows_split (prices : List ℚ) (hlen : 70 ≤ prices.length) :
    ∃ A B : List ℚ, A.length = 30 ∧ B.length = 20 ∧
      A ++ B = prices.drop (prices.length - 50) ∧
      simple_moving_average prices 20 = some (B.sum / 20) ∧
      simple_moving_average prices 50 = some ((A.sum + B.sum) / 50) := by
  refine ⟨(prices.drop (prices.length - 50)).take 30,
    (prices.drop (prices.length - 50)).drop 30, ?_, ?_, ?_, ?_, ?_⟩
  · rw [List.length_take, List.length_drop]; omega
  · rw [List.length_drop, List.length_drop]; omega
  · exact List.take_append_drop 30 _
  · have h20 := sma_some prices 20 (by norm_num) (by omega)
    have e20 : prices.length - (20 : ℤ).toNat = prices.length - 20 := by simp
    rw [e20] at h20
    have edrop : (prices.drop (prices.length - 50)).drop 30
        = prices.drop (prices.length - 20) := by
      rw [List.drop_drop]; congr 1; omega
    rw [h20, edrop]
    norm_num
  · have h50 := sma_some prices 50 (by norm_num) (by omega)
    have e50 : prices.length - (50 : ℤ).toNat = prices.length - 50 := by simp
    rw [e50] at h50
    rw [h50, ← List.sum_append, List.take_append_drop]
    norm_num

theorem sma_lt_of_strict_rise (prices : List ℚ) (hlen : 70 ≤ prices.length)
    (hpos : ∀ x ∈ prices, 0 < x) (hmono : prices.Pairwise (· < ·)) :
    ∃ s l, simple_moving_average prices 20 = some s ∧
      simple_moving_average prices 50 = some l ∧ 0 < l ∧ l < s := by
  obtain ⟨A, B, hAlen, hBlen, hAB, h20, h50⟩ := sma_windows_split prices hlen
  have hAne : A ≠ [] := List.ne_nil_of_length_pos (by omega)
  have hBne : B ≠ [] := List.ne_nil_of_length_pos (by omega)
  have hdPW : (prices.drop (prices.length - 50)).Pairwise (· < ·) :=
    hmono.sublist (List.drop_sublist _ _)
  have hcross : ∀ x ∈ A, ∀ y ∈ B, x < y :=
    (List.pairwise_append.mp (by rwa [hAB])).2.2
  have hApos : ∀ x ∈ A, 0 < x := by
    intro x hx
    have : x ∈ prices.drop (prices.length - 50) := by rw [← hAB]; exact List.mem_append_left _ hx
    exact hpos x (List.mem_of_mem_drop this)
  have hBpos : ∀ x ∈ B, 0 < x := by
    intro x hx
    have : x ∈ prices.drop (prices.length - 50) := by rw [← hAB]; exact List.mem_append_right _ hx
    exact hpos x (List.mem_of_mem_drop this)
  have hcx := cross_sum_lt A B hAne hBne hcross
  rw [hAlen, hBlen] at hcx
  push_cast at hcx
  have hAsum : 0 < A.sum := List.sum_pos A hApos hAne
  have hBsum : 0 < B.sum := List.sum_pos B hBpos hBne
  refine ⟨B.sum / 20, (A.sum + B.sum) / 50, h20, h50, ?_, ?_⟩
  · positivity
  · rw [div_lt_div_iff (by norm_num) (by norm_num)]
    linarith

theorem sma_gt_of_strict_fall (prices : List ℚ) (hlen : 70 ≤ prices.length)
    (hpos : ∀ x ∈ prices, 0 < x) (hmono : prices.Pairwise (· > ·)) :
    ∃ s l, simple_moving_average prices 20 = some s ∧
      simple_moving_average prices 50 = some l ∧ 0 < l ∧ s < l := by
  obtain ⟨A, B, hAlen, hBlen, hAB, h20, h50⟩ := sma_windows_split prices hlen
  have hAne : A ≠ [] := List.ne_nil_of_length_pos (by omega)
  have hBne : B ≠ [] := List.ne_nil_of_length_pos (by omega)
  have hdPW : (prices.drop (prices.length - 50)).Pairwise (· > ·) :=
    hmono.sublist (List.drop_sublist _ _)
  have hcrossGT : ∀ x ∈ A, ∀ y ∈ B, x > y :=
    (List.pairwise_append.mp (by rwa [hAB])).2.2
  have hApos : ∀ x ∈ A, 0 < x := by
    intro x hx
    have : x ∈ prices.drop (prices.length - 50) := by rw [← hAB]; exact List.mem_append_left _ hx
    exact hpos x (List.mem_of_mem_drop this)
  have hBpos : ∀ x ∈ B, 0 < x := by
    intro x hx
    have : x ∈ prices.drop (prices.length - 50) := by rw [← hAB]; exact List.mem_append_right _ hx
    exact hpos x (List.mem_of_mem_drop this)
  have hcx := cross_sum_lt B A hBne hAne (fun x hx y hy => hcrossGT y hy x hx)
  rw [hAlen, hBlen] at hcx
  push_cast at hcx
  have hAsum : 0 < A.sum := List.sum_pos A hApos hAne
  have hBsum : 0 < B.sum := List.sum_pos B hBpos hBne
  refine ⟨B.sum / 20, (A.sum + B.sum) / 50, h20, h50, ?_, ?_⟩
  · positivity
  · rw [div_lt_div_iff (by norm_num) (by norm_num)]
    linarith

theorem roc_eval (prices : List ℚ) (hlen : 70 ≤ prices.length)
    (hb6 : prices.length - 6 < prices.length)
    (hb1 : prices.length - 1 < prices.length)
    (hne : prices[prices.length - 6] ≠ 0) :
    rate_of_change prices 5
      = some ((prices[prices.length - 1] - prices[prices.length - 6])
        / prices[prices.length - 6]) := by
  unfold rate_of_change rocReference
  rw [if_neg (by omega)]
  have e6 : ((-5 : ℤ) - 1) = -6 := by norm_num
  have h6 := pyGet?_neg prices 6 (by norm_num) (by omega)
  have h1 := pyGet?_neg prices 1 (by norm_num) (by omega)
  have e6n : prices.length - (6 : ℤ).toNat = prices.length - 6 := by simp
  have e1n : prices.length - (1 : ℤ).toNat = prices.length - 1 := by simp
  rw [e6n] at h6
  rw [e1n] at h1
  rw [List.getElem?_eq_getElem hb6] at h6
  rw [List.getElem?_eq_getElem hb1] at h1
  rw [e6, h6, h1]
  dsimp only [Option.getD_some]
  rw [if_neg hne]

theorem roc_pos_of_strict_rise (prices : List ℚ) (hlen : 70 ≤ prices.length)
    (hpos : ∀ x ∈ prices, 0 < x) (hmono : prices.Pairwise (· < ·)) :
    ∃ r, rate_of_change prices 5 = some r ∧ 0 < r := by
  have hb6 : prices.length - 6 < prices.length := by omega
  have hb1 : prices.length - 1 < prices.length := by omega
  have hpast : 0 < prices[prices.length - 6] :=
    hpos _ (List.getElem_mem hb6)
  have hlt : prices[prices.length - 6] < prices[prices.length - 1] :=
    List.pairwise_iff_getElem.mp hmono _ _ hb6 hb1 (by omega)
  refine ⟨_, roc_eval prices hlen hb6 hb1 (ne_of_gt hpast), ?_⟩
  exact div_pos (by linarith) hpast

theorem roc_neg_of_strict_fall (prices : List ℚ) (hlen : 70 ≤ prices.length)
    (hpos : ∀ x ∈ prices, 0 < x) (hmono : prices.Pairwise (· > ·)) :
    ∃ r, rate_of_change prices 5 = some r ∧ r < 0 := by
  have hb6 : prices.length - 6 < prices.length := by omega
  have hb1 : prices.length - 1 < prices.length := by omega
  have hpast : 0 < prices[prices.length - 6] :=
    hpos _ (List.getElem_mem hb6)
  have hlt : prices[prices.length - 1] < prices[prices.length - 6] :=
    List.pairwise_iff_getElem.mp hmono _ _ hb6 hb1 (by omega)
  refine ⟨_, roc_eval prices hlen hb6 hb1 (ne_of_gt hpast), ?_⟩
  exact div_neg_of_neg_of_pos (by linarith) hpast

theorem zip_consec_rel (R : ℚ → ℚ → Prop) :
    ∀ (d : List ℚ), d.Pairwise R → ∀ (k : ℕ),
      ∀ p ∈ (d.take k).zip (d.drop 1), R p.1 p.2 := by
  intro d
  induction d with
  | nil => intro _ k p hp; simp at hp
  | cons x t ih =>
    intro hd k p hp
    cases k with
    | zero => simp at hp
    | succ k' =>
      cases t with
      | nil => simp at hp
      | cons y t' =>
        simp only [List.take_succ_cons, List.drop_succ_cons, List.drop_zero,
          List.zip_cons_cons, List.mem_cons] at hp
        rcases hp with rfl | hp'
        · exact (List.pairwise_cons.mp hd).1 y (List.mem_cons_self _ _)
        · exact ih (List.pairwise_cons.mp hd).2 k' p
            (by simpa [List.drop_one] using hp')

theorem glStep_rising (init p : ℚ × ℚ) (hp : p.1 < p.2) :
    glStep init p = (init.1 + (p.2 - p.1), init.2) := by
  unfold glStep
  dsimp only
  rw [if_pos (by linarith)]

theorem glStep_falling (init p : ℚ × ℚ) (hp : p.2 < p.1) :
    glStep init p = (init.1, init.2 - (p.2 - p.1)) := by
  unfold glStep
  dsimp only
  rw [if_neg (by linarith)]

theorem foldl_glStep_snd (pairs : List (ℚ × ℚ)) (h : ∀ p ∈ pairs, p.1 < p.2) :
    ∀ init : ℚ × ℚ, (pairs.foldl glStep init).2 = init.2 := by
  induction pairs with
  | nil => intro init; rfl
  | cons p ps ih =>
    intro init
    rw [List.foldl_cons, glStep_rising init p (h p (List.mem_cons_self _ _)),
      ih (fun q hq => h q (List.mem_cons_of_mem _ hq))]

theorem foldl_glStep_falling (pairs : List (ℚ × ℚ)) (h : ∀ p ∈ pairs, p.2 < p.1) :
    ∀ init : ℚ × ℚ, (pairs.foldl glStep init).1 = init.1 ∧
      init.2 ≤ (pairs.foldl glStep init).2 ∧
      (pairs ≠ [] → init.2 < (pairs.foldl glStep init).2) := by
  induction pairs with
  | nil => exact fun init => ⟨rfl, le_refl _, fun hc => absurd rfl hc⟩
  | cons p ps ih =>
    intro init
    have hp := h p (List.mem_cons_self _ _)
    rw [List.foldl_cons, glStep_falling init p hp]
    have hih := ih (fun q hq => h q (List.mem_cons_of_mem _ hq))
      (init.1, init.2 - (p.2 - p.1))
    have h1 := hih.1
    have h2 := hih.2.1
    simp only at h1 h2
    exact ⟨h1, by linarith, fun _ => by linarith⟩

theorem rsiPairs_eq (prices : List ℚ) (hlen : 70 ≤ prices.length) :
    rsiPairs prices 14
      = ((prices.drop (prices.length - 15)).take 14).zip
          ((prices.drop (prices.length - 15)).drop 1) := by
  unfold rsiPairs pySlice pySliceFrom
  have e15 : ((-14 : ℤ) - 1) = -15 := by norm_num
  rw [e15, pyClamp_neg prices.length 15 (by norm_num) (by omega),
    pyClamp_neg prices.length 1 (by norm_num) (by omega),
    pyClamp_neg prices.length 14 (by norm_num) (by omega)]
  have c15 : (15 : ℤ).toNat = 15 := rfl
  have c14 : (14 : ℤ).toNat = 14 := rfl
  have c1 : (1 : ℤ).toNat = 1 := rfl
  rw [c15, c14, c1, List.drop_take]
  congr 1
  · congr 1
    omega
  · rw [List.drop_drop]
    congr 1
    omega

theorem rsi_100_of_strict_rise (prices : List ℚ) (hlen : 70 ≤ prices.length)
    (hmono : prices.Pairwise (· < ·)) :
    relative_strength_index prices 14 = some 100 := by
  have hall : ∀ p ∈ rsiPairs prices 14, p.1 < p.2 := by
    rw [rsiPairs_eq prices hlen]
    exact zip_consec_rel (· < ·) _ (hmono.sublist (List.drop_sublist _ _)) 14
  unfold relative_strength_index gainsLosses
  rw [if_neg (by omega)]
  dsimp only
  rw [if_pos (foldl_glStep_snd _ hall (0, 0))]

theorem rsi_0_of_strict_fall (prices : List ℚ) (hlen : 70 ≤ prices.length)
    (hmono : prices.Pairwise (· > ·)) :
    relative_strength_index prices 14 = some 0 := by
  have hall : ∀ p ∈ rsiPairs prices 14, p.2 < p.1 := by
    rw [rsiPairs_eq prices hlen]
    exact zip_consec_rel (· > ·) _ (hmono.sublist (List.drop_sublist _ _)) 14
  have hne : rsiPairs prices 14 ≠ [] := by
    rw [rsiPairs_eq prices hlen]
    apply List.ne_nil_of_length_pos
    have hdlen : (prices.drop (prices.length - 15)).length = 15 := by
      rw [List.length_drop]; omega
    rw [List.length_zip, List.length_take, hdlen, List.length_drop, hdlen]
    norm_num
  have hfold := foldl_glStep_falling (rsiPairs prices 14) hall (0, 0)
  have hfst := hfold.1
  have hsnd := hfold.2.2 hne
  simp only at hfst hsnd
  unfold relative_strength_index gainsLosses
  rw [if_neg (by omega)]
  dsimp only
  rw [if_neg (ne_of_gt hsnd), hfst, zero_div]
  norm_num

theorem smaSignal_rise (prices : List ℚ) (hlen : 70 ≤ prices.length)
    (hpos : ∀ x ∈ prices, 0 < x) (hmono : prices.Pairwise (· < ·)) :
    ∃ delta : ℚ, 0 < delta ∧
      smaSignal prices = (min |delta| 0.4, 0, [smaBuyReason]) := by
  obtain ⟨s, l, h20, h50, hl, hsl⟩ := sma_lt_of_strict_rise prices hlen hpos hmono
  refine ⟨(s - l) / l, div_pos (by linarith) hl, ?_⟩
  unfold smaSignal
  rw [h20, h50]
  dsimp only
  rw [if_pos (div_pos (by linarith) hl)]

theorem smaSignal_fall (prices : List ℚ) (hlen : 70 ≤ prices.length)
    (hpos : ∀ x ∈ prices, 0 < x) (hmono : prices.Pairwise (· > ·)) :
    ∃ delta : ℚ, delta < 0 ∧
      smaSignal prices = (0, min |delta| 0.4, [smaSellReason]) := by
  obtain ⟨s, l, h20, h50, hl, hsl⟩ := sma_gt_of_strict_fall prices hlen hpos hmono
  have hneg : (s - l) / l < 0 := div_neg_of_neg_of_pos (by linarith) hl
  refine ⟨(s - l) / l, hneg, ?_⟩
  unfold smaSignal
  rw [h20, h50]
  dsimp only
  rw [if_neg (by linarith), if_pos hneg]

theorem rocSignal_rise (prices : List ℚ) (hlen : 70 ≤ prices.length)
    (hpos : ∀ x ∈ prices, 0 < x) (hmono : prices.Pairwise (· < ·)) :
    ∃ r : ℚ, 0 < r ∧ rocSignal prices = (min |r| 0.2, 0, [rocBuyReason r]) := by
  obtain ⟨r, hroc, hr⟩ := roc_pos_of_strict_rise prices hlen hpos hmono
  refine ⟨r, hr, ?_⟩
  unfold rocSignal
  rw [hroc]
  dsimp only
  rw [if_pos hr]

theorem rocSignal_fall (prices : List ℚ) (hlen : 70 ≤ prices.length)
    (hpos : ∀ x ∈ prices, 0 < x) (hmono : prices.Pairwise (· > ·)) :
    ∃ r : ℚ, r < 0 ∧ rocSignal prices = (0, min |r| 0.2, [rocSellReason r]) := by
  obtain ⟨r, hroc, hr⟩ := roc_neg_of_strict_fall prices hlen hpos hmono
  refine ⟨r, hr, ?_⟩
  unfold rocSignal
  rw [hroc]
  dsimp only
  rw [if_neg (by linarith), if_pos hr]

theorem rsiSignal_rise (prices : List ℚ) (hlen : 70 ≤ prices.length)
    (hmono : prices.Pairwise (· < ·)) :
    rsiSignal prices = (0, 0.3, [rsiOverboughtReason]) := by
  unfold rsiSignal
  rw [rsi_100_of_strict_rise prices hlen hmono]
  dsimp only
  rw [if_pos (by norm_num)]
  norm_num

theorem rsiSignal_fall (prices : List ℚ) (hlen : 70 ≤ prices.length)
    (hmono : prices.Pairwise (· > ·)) :
    rsiSignal prices = (0.3, 0, [rsiOversoldReason]) := by
  unfold rsiSignal
  rw [rsi_0_of_strict_fall prices hlen hmono]
  dsimp only
  rw [if_neg (by norm_num), if_pos (by norm_num)]
  norm_num

/-- C4 (amended): for every strictly monotonically rising series of at least
70 positive closing prices whose aggregated buy pressure exceeds 0.35 (i.e.
the series rises steeply enough for the SMA-crossover and momentum
contributions to outweigh the RSI-overbought signal, which contributes
exactly 0.3 of sell pressure because RSI = 100 on such a series),
`analyse_asset` returns Buy with confidence > 0.2 and the uptrend reason;
for every strictly falling such series whose aggregated sell pressure
exceeds 0.35, it returns Sell.  Slowly rising series instead yield Sell
(see the counterexample), so the steepness conditions are necessary. -/
theorem analyse_monotone_series (asset : String) (bars : List PriceBar)
    (h70 : 70 ≤ bars.length)
    (hpos : ∀ p ∈ closing_prices bars, 0 < p) :
    ((closing_prices bars).Pairwise (· < ·) →
      0.35 < buyPressure (closing_prices bars) →
      (analyse_asset asset bars).action = "Buy" ∧
        0.2 < (analyse_asset asset bars).confidence ∧
        smaBuyReason ∈ (analyse_asset asset bars).reasons) ∧
    ((closing_prices bars).Pairwise (· > ·) →
      0.35 < sellPressure (closing_prices bars) →
      (analyse_asset asset bars).action = "Sell") := by
  have hplen : 70 ≤ (closing_prices bars).length := by
    unfold closing_prices
    rw [List.length_map]
    exact h70
  constructor
  · intro hmono hsteep
    obtain ⟨δ, hδ, hsma⟩ := smaSignal_rise _ hplen hpos hmono
    obtain ⟨r, hr, hroc⟩ := rocSignal_rise _ hplen hpos hmono
    have hrsi := rsiSignal_rise _ hplen hmono
    have hsell : sellPressure (closing_prices bars) = 0.3 := by
      unfold sellPressure
      rw [hsma, hroc, hrsi]
      norm_num
    have hcond : sellPressure (closing_prices bars) + 0.05
        < buyPressure (closing_prices bars) := by
      rw [hsell]
      have e : (0.3 : ℚ) + 0.05 = 0.35 := by norm_num
      rw [e]
      exact hsteep
    have hcr : collectedReasons (closing_prices bars)
        = [smaBuyReason, rocBuyReason r, rsiOverboughtReason] := by
      unfold collectedReasons
      rw [hsma, hroc, hrsi]
      rfl
    refine ⟨?_, ?_, ?_⟩
    · show (decideAction (buyPressure (closing_prices bars))
        (sellPressure (closing_prices bars))).1 = "Buy"
      unfold decideAction
      dsimp only
      rw [if_pos hcond]
    · show 0.2 < (decideAction (buyPressure (closing_prices bars))
        (sellPressure (closing_prices bars))).2
      unfold decideAction
      dsimp only
      rw [if_pos hcond]
      exact lt_min_iff.mpr ⟨by linarith, by norm_num⟩
    · show smaBuyReason ∈ finalReasons (closing_prices bars)
      unfold finalReasons
      rw [hcr, if_neg (by simp)]
      exact List.mem_cons_self _ _
  · intro hmono hsteep
    obtain ⟨δ, hδ, hsma⟩ := smaSignal_fall _ hplen hpos hmono
    obtain ⟨r, hr, hroc⟩ := rocSignal_fall _ hplen hpos hmono
    have hrsi := rsiSignal_fall _ hplen hmono
    have hbuy : buyPressure (closing_prices bars) = 0.3 := by
      unfold buyPressure
      rw [hsma, hroc, hrsi]
      norm_num
    have hcond1 : ¬(sellPressure (closing_prices bars) + 0.05
        < buyPressure (closing_prices bars)) := by
      rw [hbuy]
      push_neg
      linarith
    have hcond2 : buyPressure (closing_prices bars) + 0.05
        < sellPressure (closing_prices bars) := by
      rw [hbuy]
      have e : (0.3 : ℚ) + 0.05 = 0.35 := by norm_num
      rw [e]
      exact hsteep
    show (decideAction (buyPressure (closing_prices bars))
      (sellPressure (closing_prices bars))).1 = "Sell"
    unfold decideAction
    dsimp only
    rw [if_neg hcond1, if_pos hcond2]

set_option maxRecDepth 100000 in
/-- Counterexample to C4 as stated: a strictly monotonically rising
70-point positive price series on which `analyse_asset` returns Sell, not
Buy (the slow rise leaves the buy pressure below the RSI-overbought sell
pressure of 0.3), and a strictly falling such series on which it returns
Buy. -/
theorem slow_monotone_series_reverse_action :
    (closing_prices slowRiseBars).Pairwise (· < ·) ∧
      (∀ p ∈ closing_prices slowRiseBars, 0 < p) ∧
      slowRiseBars.length = 70 ∧
      (analyse_asset "XMR" slowRiseBars).action = "Sell" ∧
      (closing_prices slowFallBars).Pairwise (· > ·) ∧
      (∀ p ∈ closing_prices slowFallBars, 0 < p) ∧
      slowFallBars.length = 70 ∧
      (analyse_asset "XMR" slowFallBars).action = "Buy" := by
  with_unfolding_all decide

set_option maxRecDepth 100000 in
/-- Witness for C4 (amended) at concrete inputs: the steep rising series
yields Buy with confidence above 0.2 and the uptrend reason; the steep
falling series yields Sell. -/
theorem analyse_monotone_series_witness :
    ((analyse_asset "XMR" steepRiseBars).action = "Buy" ∧
      0.2 < (analyse_asset "XMR" steepRiseBars).confidence ∧
      smaBuyReason ∈ (analyse_asset "XMR" steepRiseBars).reasons) ∧
      (analyse_asset "XMR" steepFallBars).action = "Sell" :=
  ⟨(analyse_monotone_series "XMR" steepRiseBars
      (by with_unfolding_all decide) (by with_unfolding_all decide)).1
      (by with_unfolding_all decide) (by with_unfolding_all decide),
   (analyse_monotone_series "XMR" steepFallBars
      (by with_unfolding_all decide) (by with_unfolding_all decide)).2
      (by with_unfolding_all decide) (by with_unfolding_all decide)⟩

end Darkhorse
